import Mathlib

/-!
Verification of the GithubIssue operator's reconciliation core.

The Go sources are embedded shallowly:

* `internal/controller/utils.go` — `searchForIssue`, `AddFinalizer`,
  `DeleteFinalizer`, `UpdateIssueStatus`, `CheckIfOpen`, `CheckForPr`.
* `internal/controller/githubissue_controller.go` — `Reconcile`.

Pointer-typed Go fields become `Option`; a Go nil-pointer dereference is an
explicit fault branch of the total embedding.  External calls (the GitHub
client and the Kubernetes store) are modelled by an environment record fixing
each call's outcome, and every external call an invocation issues is recorded
in an ordered trace, so ordering and call-count properties can be stated.
The persisted object carried through `reconcile` changes only on a successful
store write, mirroring the fact that a failed `Update` leaves the stored
object untouched.
-/

namespace GithubIssueOperator

/-- Embeds `metav1.ConditionStatus`: the declared schema admits True, False and
Unknown. -/
inductive ConditionStatus
  | condTrue
  | condFalse
  | condUnknown
deriving DecidableEq, Repr

/-- Embeds `metav1.Condition` as used by the controller (`lastTransitionTime` is
maintained inside the k8s meta helpers and is irrelevant to the claims, so it
is omitted from the embedding). -/
structure Condition where
  condType : String
  status : ConditionStatus
  reason : String
  message : String
deriving DecidableEq, Repr

/-- Embeds `GithubIssueSpec` (api/v1): repo URL, title, description. -/
structure GithubIssueSpec where
  repo : String
  title : String
  description : String
deriving DecidableEq, Repr

/-- The declared `GithubIssue` object as the store persists it: the
deletion-intent flag (`ObjectMeta.DeletionTimestamp.IsZero()`), the finalizer
list, the spec and the status conditions. -/
structure GithubIssueObject where
  deletionTimestampIsZero : Bool
  finalizers : List String
  spec : GithubIssueSpec
  conditions : List Condition
deriving DecidableEq, Repr

/-- Embeds `github.Issue` (go-github): the fields the controller reads.  Pointer
fields are `Option`; `pullRequestLinks` models the `PullRequestLinks` pointer
(carrying its URL when present). -/
structure GhIssue where
  number : Option Int
  title : Option String
  state : Option String
  pullRequestLinks : Option String
deriving DecidableEq, Repr

/-- The `CloseIssuesFinalizer` constant of the controller package. -/
def CloseIssuesFinalizer : String := "issues.dvir.io/finalizer"

/-- Embeds `strings.EqualFold`: case-insensitive equality (simple case folding),
compared character-wise on the strings' character lists. -/
def equalFold (s t : String) : Bool :=
  s.data.map Char.toLower == t.data.map Char.toLower

/-- A Go nil-pointer dereference reached by the controller. -/
inductive DerefFault
  | nilTitle
  | nilNumber
deriving DecidableEq, Repr

/-- Embeds `searchForIssue` (utils.go lines 17–25): first fetched issue whose title
is `EqualFold`-equal to the declared title.  The source dereferences
`*ghIssue.Title` with no nil check, so the total embedding returns
`Except.error .nilTitle` when a nil title is reached before a match. -/
def searchForIssueE (specTitle : String) : List GhIssue → Except DerefFault (Option GhIssue)
  | [] => .ok none
  | g :: gs =>
    match g.title with
    | none => .error .nilTitle
    | some t => if equalFold t specTitle then .ok (some g) else searchForIssueE specTitle gs

/-- Embeds `meta.FindStatusCondition`: the first condition with the given type. -/
def findStatusCondition (conds : List Condition) (t : String) : Option Condition :=
  conds.find? fun c => c.condType == t

/-- Embeds `meta.IsStatusConditionPresentAndEqual`: a condition of the given type is
present and its status equals the given status. -/
def IsStatusConditionPresentAndEqual (conds : List Condition) (t : String)
    (s : ConditionStatus) : Bool :=
  match findStatusCondition conds t with
  | some c => c.status == s
  | none => false

/-- Embeds `meta.SetStatusCondition`: type-keyed upsert — replace the condition with
the same type, or append when no condition of that type exists. -/
def setStatusCondition (conds : List Condition) (newc : Condition) : List Condition :=
  match findStatusCondition conds newc.condType with
  | none => conds ++ [newc]
  | some _ => conds.map fun c => if c.condType == newc.condType then newc else c

/-- Embeds the `githubIssue.GetState()` getter (go-github): the state string, or `""`
when the pointer is nil. -/
def GetState (g : GhIssue) : String := (g.state).getD ("")

/-- The condition `CheckIfOpen` (utils.go lines 85–89) computes: default
`IssueIsOpen=True`, overwritten with `False` (reason/message templated on the
observed state string) when the remote state is not `"open"`. -/
def checkIfOpenCondition (g : GhIssue) : Condition :=
  if GetState g != "open" then
    ⟨"IssueIsOpen", .condFalse, "Issueis" ++ GetState g, "Issue is " ++ GetState g⟩
  else
    ⟨"IssueIsOpen", .condTrue, "IssueIsOpen", "Issue is open"⟩

/-- Embeds `CheckIfOpen` (utils.go lines 85–95): upsert the computed `IssueIsOpen`
condition unless one with the same status is already present; returns whether
a change was made together with the resulting condition list. -/
def CheckIfOpen (g : GhIssue) (conds : List Condition) : Bool × List Condition :=
  let c := checkIfOpenCondition g
  if !(IsStatusConditionPresentAndEqual conds ("IssueIsOpen") c.status) then
    (true, setStatusCondition conds c)
  else
    (false, conds)

/-- The condition `CheckForPr` (utils.go lines 99–102) computes: default
`IssueHasPR=False`, overwritten with `True` when the issue carries a direct
pull-request link (`GetPullRequestLinks() != nil`). -/
def checkForPrCondition (g : GhIssue) : Condition :=
  if (g.pullRequestLinks).isSome then
    ⟨"IssueHasPR", .condTrue, "IssueHasPR", "Issue Has an open PR"⟩
  else
    ⟨"IssueHasPR", .condFalse, "IssueHasnopr", "Issue has no pr"⟩

/-- Embeds `CheckForPr` (utils.go lines 98–108): upsert the computed `IssueHasPR`
condition unless one with the same status is already present; returns whether
a change was made together with the resulting condition list. -/
def CheckForPr (g : GhIssue) (conds : List Condition) : Bool × List Condition :=
  let c := checkForPrCondition g
  if !(IsStatusConditionPresentAndEqual conds ("IssueHasPR") c.status) then
    (true, setStatusCondition conds c)
  else
    (false, conds)

/-- Embeds `UpdateIssueStatus` (utils.go lines 63–82): run `CheckForPr` then
`CheckIfOpen` on the object's conditions and issue one status write exactly
when either reported a change.  The returned `Bool` is whether the status
write call was issued; the store write itself (and its test-environment
fallback to a full-object update) is external and carries the returned
condition list. -/
def UpdateIssueStatus (g : GhIssue) (conds : List Condition) : Bool × List Condition :=
  let pr := CheckForPr g conds
  let op := CheckIfOpen g pr.2
  (op.1 || pr.1, op.2)

/-- Kind of a remote timeline event, per the spec's data model. -/
inductive EventKind
  | connected
  | crossReferenced
  | disconnected
  | other
deriving DecidableEq, Repr

/-- A remote timeline lifecycle event. -/
structure TimelineEvent where
  kind : EventKind
deriving DecidableEq, Repr

/-- Modelled from the spec: the newest-first scan inside `searchForPR` —
return True on the first connected or cross-referenced event, False on the
first disconnected event, and False when no relevant event exists. -/
def scanTimelinePR : List TimelineEvent → ConditionStatus
  | [] => .condFalse
  | e :: rest =>
    match e.kind with
    | .connected => .condTrue
    | .crossReferenced => .condTrue
    | .disconnected => .condFalse
    | .other => scanTimelinePR rest

/-- Modelled from the spec: `searchForPR` (called at controller line 152; its
definition is absent from src).  The timeline is fetched oldest→newest and
scanned from the most recent event to the oldest. -/
def searchForPR (tl : List TimelineEvent) : ConditionStatus :=
  scanTimelinePR tl.reverse

/-- Modelled from the spec: the `HasPR` projection for a matched remote issue
— True when the issue carries a direct pull-request link (the check
`CheckForPr` performs on `GetPullRequestLinks`), otherwise the `searchForPR`
timeline fallback. -/
def projectHasPR (g : GhIssue) (tl : List TimelineEvent) : ConditionStatus :=
  if (g.pullRequestLinks).isSome then .condTrue else searchForPR tl

/-- Error classes `Reconcile` can return to the scheduler. -/
inductive RecError
  | invalidRepoURL
  | listIssuesFailed
  | danglingDeletion
  | closeIssueFailed
  | finalizerUpdateFailed
  | createIssueFailed
  | editIssueFailed
  | statusUpdateFailed
deriving DecidableEq, Repr

/-- Terminal outcome of one invocation: success, an error returned to the
scheduler, or a nil-pointer dereference fault. -/
inductive Outcome
  | ok
  | err (e : RecError)
  | fault (p : DerefFault)
deriving DecidableEq, Repr

/-- One external call issued during an invocation.  `closeIssue` is the
`Issues.Edit` call that sets the remote state to `"closed"`; `updateObject`
is the store write persisting the given finalizer list; `updateStatus` is the
status-subresource write persisting the given condition list. -/
inductive ExtCall
  | listIssues
  | closeIssue (number : Int)
  | createIssue (title : String) (body : String)
  | editIssue (number : Int) (body : String)
  | listTimeline (number : Int)
  | updateObject (finalizers : List String)
  | updateStatus (conditions : List Condition)
deriving DecidableEq, Repr

/-- Fixed outcomes of the external collaborators for one invocation.
`listResult` and `timelineResult` are `none` when the corresponding fetch
fails; the `Ok` flags give the success of each mutating call. -/
structure Env where
  urlValid : Bool
  listResult : Option (List GhIssue)
  closeOk : Bool
  createOk : Bool
  editOk : Bool
  timelineResult : Option (List TimelineEvent)
  updateOk : Bool
  statusUpdateOk : Bool
deriving DecidableEq, Repr

/-- Result of one invocation: the outcome, the object as the store persists
it afterwards, and the ordered trace of external calls issued. -/
structure RecResult where
  outcome : Outcome
  persisted : GithubIssueObject
  trace : List ExtCall
deriving DecidableEq, Repr

/-- Embeds `AddFinalizer` (utils.go lines 28–43): when the marker is absent, append
it and persist via `r.Update`; a no-op when already present.  Returns the
error (if the persist failed), the persisted object and the calls issued. -/
def AddFinalizer (updateOk : Bool) (obj : GithubIssueObject) :
    Option RecError × GithubIssueObject × List ExtCall :=
  if CloseIssuesFinalizer ∈ obj.finalizers then
    (none, obj, [])
  else
    let fins := obj.finalizers ++ [CloseIssuesFinalizer]
    if updateOk then
      (none, { obj with finalizers := fins }, [.updateObject fins])
    else
      (some .finalizerUpdateFailed, obj, [.updateObject fins])

/-- Embeds `DeleteFinalizer` (utils.go lines 46–60): when the marker is present,
remove it and persist via `r.Update`; otherwise a no-op returning `false`.
Returns the error, whether a removal was persisted, the persisted object and
the calls issued. -/
def DeleteFinalizer (updateOk : Bool) (obj : GithubIssueObject) :
    Option RecError × Bool × GithubIssueObject × List ExtCall :=
  if CloseIssuesFinalizer ∈ obj.finalizers then
    let fins := obj.finalizers.filter fun f => f != CloseIssuesFinalizer
    if updateOk then
      (none, true, { obj with finalizers := fins }, [.updateObject fins])
    else
      (some .finalizerUpdateFailed, false, obj, [.updateObject fins])
  else
    (none, false, obj, [])

/-- Modelled from the spec: the `UpdateIssueStatus` overload taking the two
computed condition status values (called by `Reconcile` at controller lines
129 and 153; this overload is absent from src).  Upsert the `IssueIsOpen` and
`IssueHasPR` conditions and issue one status write exactly when at least one
condition's status value differs from the persisted one; a failed write
surfaces an error and leaves the persisted object unchanged. -/
def updateIssueStatusVals (statusUpdateOk : Bool) (obj : GithubIssueObject)
    (isOpen hasPR : ConditionStatus) : Option RecError × GithubIssueObject × List ExtCall :=
  let openCond : Condition := ⟨"IssueIsOpen", isOpen, "IssueIsOpen", "Issue open state"⟩
  let prCond : Condition := ⟨"IssueHasPR", hasPR, "IssueHasPR", "Issue PR state"⟩
  if !(IsStatusConditionPresentAndEqual obj.conditions ("IssueIsOpen") isOpen) ||
      !(IsStatusConditionPresentAndEqual obj.conditions ("IssueHasPR") hasPR) then
    let newConds := setStatusCondition (setStatusCondition obj.conditions prCond) openCond
    if statusUpdateOk then
      (none, { obj with conditions := newConds }, [.updateStatus newConds])
    else
      (some .statusUpdateFailed, obj, [.updateStatus newConds])
  else
    (none, obj, [])

/-- Embeds `Reconcile` (githubissue_controller.go lines 49–164), starting after the
store fetch of the declared object (the fetch and the not-found no-op are
external to the embedded core; `isGitHubURL`, whose definition is outside the
controller sources, is modelled by the `urlValid` flag).  The source calls
`searchForIssue` at line 82 and again, with identical arguments and result,
at line 117; the embedding evaluates it once. -/
def reconcile (env : Env) (obj : GithubIssueObject) : RecResult :=
  if !env.urlValid then
    ⟨.err .invalidRepoURL, obj, []⟩
  else
    match env.listResult with
    | none => ⟨.err .listIssuesFailed, obj, [.listIssues]⟩
    | some allIssues =>
      match searchForIssueE obj.spec.title allIssues with
      | .error p => ⟨.fault p, obj, [.listIssues]⟩
      | .ok found =>
        if !obj.deletionTimestampIsZero then
          match found with
          | none => ⟨.err .danglingDeletion, obj, [.listIssues]⟩
          | some g =>
            match g.number with
            | none => ⟨.fault .nilNumber, obj, [.listIssues]⟩
            | some n =>
              if !env.closeOk then
                ⟨.err .closeIssueFailed, obj, [.listIssues, .closeIssue n]⟩
              else
                match DeleteFinalizer env.updateOk obj with
                | (some e, _, obj2, calls) =>
                  ⟨.err e, obj2, [.listIssues, .closeIssue n] ++ calls⟩
                | (none, _, obj2, calls) =>
                  ⟨.ok, obj2, [.listIssues, .closeIssue n] ++ calls⟩
        else
          match AddFinalizer env.updateOk obj with
          | (some e, obj1, calls1) => ⟨.err e, obj1, [.listIssues] ++ calls1⟩
          | (none, obj1, calls1) =>
            match found with
            | none =>
              let calls2 := calls1 ++ [.createIssue obj.spec.title obj.spec.description]
              if !env.createOk then
                ⟨.err .createIssueFailed, obj1, [.listIssues] ++ calls2⟩
              else
                match updateIssueStatusVals env.statusUpdateOk obj1 .condTrue .condFalse with
                | (some e, obj2, calls3) => ⟨.err e, obj2, [.listIssues] ++ calls2 ++ calls3⟩
                | (none, obj2, calls3) => ⟨.ok, obj2, [.listIssues] ++ calls2 ++ calls3⟩
            | some g =>
              match g.number with
              | none => ⟨.fault .nilNumber, obj1, [.listIssues] ++ calls1⟩
              | some n =>
                let calls2 := calls1 ++ [.editIssue n obj.spec.description]
                if !env.editOk then
                  ⟨.err .editIssueFailed, obj1, [.listIssues] ++ calls2⟩
                else
                  let calls3 := calls2 ++ [.listTimeline n]
                  match env.timelineResult with
                  | none => ⟨.ok, obj1, [.listIssues] ++ calls3⟩
                  | some tl =>
                    match updateIssueStatusVals env.statusUpdateOk obj1
                        .condTrue (searchForPR tl) with
                    | (some e, obj2, calls4) =>
                      ⟨.err e, obj2, [.listIssues] ++ calls3 ++ calls4⟩
                    | (none, obj2, calls4) =>
                      ⟨.ok, obj2, [.listIssues] ++ calls3 ++ calls4⟩

/-- Is this call the close mutation? -/
def isCloseCall : ExtCall → Bool
  | .closeIssue _ => true
  | _ => false

/-- Is this call a status write? -/
def isStatusWrite : ExtCall → Bool
  | .updateStatus _ => true
  | _ => false

/-- Walk a trace tracking the finalizer list carried by the most recent
`updateObject` call (seeded with the object's initial list): `true` exactly
when every create call happens at a point where the finalizer marker is in
that list. -/
def guardedCreate (fins : List String) : List ExtCall → Bool
  | [] => true
  | c :: rest =>
    match c with
    | .createIssue _ _ => decide (CloseIssuesFinalizer ∈ fins) && guardedCreate fins rest
    | .updateObject newFins => guardedCreate newFins rest
    | _ => guardedCreate fins rest

/-- A sample open remote issue whose title matches sample specs below. -/
def sampleIssue : GhIssue := ⟨some 7, some ("t1"), some ("open"), none⟩

/-- A sample declared object not under deletion, finalizer absent. -/
def sampleObj : GithubIssueObject :=
  ⟨true, [], ⟨"https://github.com/o/r", "T1", "d"⟩, []⟩

/-- A sample declared object under deletion, finalizer present. -/
def sampleObjDeleting : GithubIssueObject :=
  ⟨false, [CloseIssuesFinalizer], ⟨"https://github.com/o/r", "T1", "d"⟩, []⟩

/-- An environment in which every external call succeeds and the fetched list
holds the matching issue (its title folds to the sample title). -/
def sampleEnvMatch : Env :=
  ⟨true, some [⟨some 7, some ("t1"), some ("open"), none⟩], true, true, true, some [], true, true⟩

/-- An environment in which every external call succeeds and the fetched list
is empty. -/
def sampleEnvEmpty : Env :=
  ⟨true, some [], true, true, true, some [], true, true⟩

/-- A persisted condition list in which both conditions already match what an
open, PR-less issue projects. -/
def sampleConds : List Condition :=
  [⟨"IssueHasPR", .condFalse, "IssueHasnopr", "Issue has no pr"⟩,
   ⟨"IssueIsOpen", .condTrue, "IssueIsOpen", "Issue is open"⟩]

end GithubIssueOperator

namespace GithubIssueOperator

/-- C4: for every declared title and fetched sequence in which every title
pointer is non-nil, `searchForIssue` returns the first issue in sequence
order whose title is case-insensitive-equal to the declared title (`List.find?`
of the fold test), and no-match otherwise; matching is exact equality ignoring
case: remote title "bug" matches declared "Bug", remote "Bug report" does
not. -/
theorem searchForIssue_first_caseInsensitive_match (specTitle : String)
    (issues : List GhIssue) (h : ∀ g ∈ issues, (g.title).isSome = true) :
    searchForIssueE specTitle issues =
      .ok (issues.find? fun g => equalFold ((g.title).getD ("")) specTitle) ∧
    equalFold ("bug") ("Bug") = true ∧
    equalFold ("Bug report") ("Bug") = false := by
  refine ⟨?_, by decide, by decide⟩
  induction issues with
  | nil => rfl
  | cons g gs ih =>
    have hg : (g.title).isSome = true := h g (List.mem_cons_self g gs)
    obtain ⟨t, ht⟩ := Option.isSome_iff_exists.mp hg
    have hrest : ∀ x ∈ gs, (x.title).isSome = true := by
      intro x hx
      exact h x (List.mem_cons_of_mem g hx)
    by_cases hmatch : equalFold t specTitle = true
    · simp [searchForIssueE, ht, hmatch, List.find?]
    · simp only [searchForIssueE, ht, hmatch]
      rw [List.find?]
      simp only [ht, Option.getD_some, hmatch]
      simpa using ih hrest

/-- C4 witness: a concrete run on a two-element fetched list. -/
theorem searchForIssue_first_caseInsensitive_match_witness :
    searchForIssueE ("Bug") [⟨some 1, some ("Other"), some ("open"), none⟩,
        ⟨some 2, some ("bug"), some ("open"), none⟩] =
      .ok ([⟨some 1, some ("Other"), some ("open"), none⟩,
        ⟨some 2, some ("bug"), some ("open"), none⟩].find? fun g =>
          equalFold ((g.title).getD ("")) ("Bug")) ∧
    equalFold ("bug") ("Bug") = true ∧
    equalFold ("Bug report") ("Bug") = false :=
  searchForIssue_first_caseInsensitive_match ("Bug") _ (by decide)

/-- C5: `UpdateIssueStatus` issues a status write exactly when the computed
status of `IssueHasPR` or of `IssueIsOpen` differs from (or is absent in) the
currently persisted condition list; when neither condition's status value
changes, no status-write call is made and the condition list is returned
unchanged. -/
theorem updateIssueStatus_write_iff_change (g : GhIssue) (conds : List Condition) :
    ((UpdateIssueStatus g conds).1 = true ↔
      (IsStatusConditionPresentAndEqual conds ("IssueHasPR")
          (checkForPrCondition g).status = false ∨
        IsStatusConditionPresentAndEqual conds ("IssueIsOpen")
          (checkIfOpenCondition g).status = false)) ∧
    ((UpdateIssueStatus g conds).1 = false → (UpdateIssueStatus g conds).2 = conds) := by
  by_cases hprP : IsStatusConditionPresentAndEqual conds ("IssueHasPR")
      (checkForPrCondition g).status = true
  · by_cases hopP : IsStatusConditionPresentAndEqual conds ("IssueIsOpen")
        (checkIfOpenCondition g).status = true
    · constructor
      · simp [UpdateIssueStatus, CheckForPr, CheckIfOpen, hprP, hopP]
      · intro hfalse
        simp [UpdateIssueStatus, CheckForPr, CheckIfOpen, hprP, hopP]
    · simp only [Bool.not_eq_true] at hopP
      constructor
      · simp [UpdateIssueStatus, CheckForPr, CheckIfOpen, hprP, hopP]
      · intro hfalse
        exfalso
        simp [UpdateIssueStatus, CheckForPr, CheckIfOpen, hprP, hopP] at hfalse
  · simp only [Bool.not_eq_true] at hprP
    constructor
    · simp [UpdateIssueStatus, CheckForPr, CheckIfOpen, hprP]
    · intro hfalse
      exfalso
      simp [UpdateIssueStatus, CheckForPr, hprP] at hfalse

/-- C5 witness: on an open issue with no PR link and both conditions already
persisted with equal statuses, the theorem yields that the condition list is
returned unchanged; the no-write hypothesis evaluates by `decide`. -/
theorem updateIssueStatus_write_iff_change_witness :
    (UpdateIssueStatus sampleIssue sampleConds).2 = sampleConds :=
  (updateIssueStatus_write_iff_change sampleIssue sampleConds).2 (by decide)

theorem scanTimelinePR_ne_unknown (l : List TimelineEvent) :
    scanTimelinePR l ≠ .condUnknown := by
  induction l with
  | nil => simp [scanTimelinePR]
  | cons e rest ih =>
    cases hk : e.kind <;> simp [scanTimelinePR, hk, ih]

/-- C10: every condition the reconciler computes has status True or False —
no projection yields Unknown, although `ConditionStatus` (the declared
schema) admits it; a remote issue whose state field is absent or empty is
projected as `IssueIsOpen=False`. -/
theorem conditions_never_unknown (g : GhIssue) (tl : List TimelineEvent) :
    (checkIfOpenCondition g).status ≠ .condUnknown ∧
    (checkForPrCondition g).status ≠ .condUnknown ∧
    searchForPR tl ≠ .condUnknown ∧
    (checkIfOpenCondition { g with state := none }).status = .condFalse ∧
    (checkIfOpenCondition { g with state := some ("") }).status = .condFalse := by
  refine ⟨?_, ?_, ?_, ?_, ?_⟩
  · unfold checkIfOpenCondition
    by_cases hs : (GetState g != "open") = true <;> simp [hs]
  · unfold checkForPrCondition
    by_cases hl : (g.pullRequestLinks).isSome = true <;> simp [hl]
  · exact scanTimelinePR_ne_unknown tl.reverse
  · simp [checkIfOpenCondition, GetState]
  · simp [checkIfOpenCondition, GetState]

/-- C6: the HasPR projection of a matched issue is True whenever the issue
carries a direct pull-request link; with no direct link it is the
newest-first timeline scan: scanning most recent to oldest, the first
connected or cross-referenced event yields True, the first disconnected
event yields False, an irrelevant newest event defers to the older events,
and an empty timeline yields False; in particular the timeline
[connected, disconnected] (oldest to newest) yields False. -/
theorem projectHasPR_spec :
    (∀ g tl, (g.pullRequestLinks).isSome = true → projectHasPR g tl = .condTrue) ∧
    (∀ g tl, g.pullRequestLinks = none → projectHasPR g tl = searchForPR tl) ∧
    (∀ tl e, e.kind = .connected ∨ e.kind = .crossReferenced →
      searchForPR (tl ++ [e]) = .condTrue) ∧
    (∀ tl e, e.kind = .disconnected → searchForPR (tl ++ [e]) = .condFalse) ∧
    (∀ tl e, e.kind = .other → searchForPR (tl ++ [e]) = searchForPR tl) ∧
    searchForPR [] = .condFalse ∧
    searchForPR [⟨.connected⟩, ⟨.disconnected⟩] = .condFalse := by
  refine ⟨?_, ?_, ?_, ?_, ?_, by decide, by decide⟩
  · intro g tl hlink
    simp [projectHasPR, hlink]
  · intro g tl hlink
    simp [projectHasPR, hlink]
  · intro tl e hk
    rcases hk with hk | hk <;> simp [searchForPR, List.reverse_append, scanTimelinePR, hk]
  · intro tl e hk
    simp [searchForPR, List.reverse_append, scanTimelinePR, hk]
  · intro tl e hk
    simp [searchForPR, List.reverse_append, scanTimelinePR, hk]

/-- C6 witness: a direct pull-request link yields HasPR=True on an empty
timeline. -/
theorem projectHasPR_spec_witness :
    projectHasPR ⟨some 7, some ("t1"), some ("open"), some ("url")⟩ [] = .condTrue :=
  projectHasPR_spec.1 ⟨some 7, some ("t1"), some ("open"), some ("url")⟩ [] (by decide)

/-- C2: deletion requested with no matching remote issue: the invocation
returns the dangling-deletion error, issues no close mutation, and the
persisted object — its finalizer marker included — is unchanged, so the
resource stays un-removable. -/
theorem reconcile_danglingDeletion (env : Env) (obj : GithubIssueObject)
    (issues : List GhIssue)
    (hurl : env.urlValid = true)
    (hdel : obj.deletionTimestampIsZero = false)
    (hlist : env.listResult = some issues)
    (hsearch : searchForIssueE obj.spec.title issues = .ok none) :
    reconcile env obj = ⟨.err .danglingDeletion, obj, [.listIssues]⟩ ∧
    ((reconcile env obj).trace.countP fun c => isCloseCall c) = 0 ∧
    (reconcile env obj).persisted.finalizers = obj.finalizers := by
  have h1 : reconcile env obj = ⟨.err .danglingDeletion, obj, [.listIssues]⟩ := by
    simp [reconcile, hurl, hdel, hlist, hsearch]
  refine ⟨h1, ?_, ?_⟩
  · rw [h1]
    simp [List.countP_cons, List.countP_nil, isCloseCall]
  · rw [h1]

/-- C2 witness: concrete deleting object against an empty remote list. -/
theorem reconcile_danglingDeletion_witness :
    reconcile sampleEnvEmpty sampleObjDeleting =
      ⟨.err .danglingDeletion, sampleObjDeleting, [.listIssues]⟩ ∧
    ((reconcile sampleEnvEmpty sampleObjDeleting).trace.countP fun c => isCloseCall c) = 0 ∧
    (reconcile sampleEnvEmpty sampleObjDeleting).persisted.finalizers =
      sampleObjDeleting.finalizers :=
  reconcile_danglingDeletion sampleEnvEmpty sampleObjDeleting [] rfl rfl rfl rfl

/-- C1: deletion with a matched remote issue: the invocation issues exactly
one close mutation; on close failure it returns an error with the persisted
object (finalizer included) unchanged; on close success the finalizer marker
is removed from the persisted object when the removal write succeeds, and
removing an already absent marker is a no-op success. -/
theorem reconcile_deletion_close (env : Env) (obj : GithubIssueObject)
    (issues : List GhIssue) (g : GhIssue) (n : Int)
    (hurl : env.urlValid = true)
    (hdel : obj.deletionTimestampIsZero = false)
    (hlist : env.listResult = some issues)
    (hsearch : searchForIssueE obj.spec.title issues = .ok (some g))
    (hnum : g.number = some n) :
    ((reconcile env obj).trace.countP fun c => isCloseCall c) = 1 ∧
    (env.closeOk = false →
      reconcile env obj = ⟨.err .closeIssueFailed, obj, [.listIssues, .closeIssue n]⟩) ∧
    (env.closeOk = true → env.updateOk = true →
      (reconcile env obj).outcome = .ok ∧
      CloseIssuesFinalizer ∉ (reconcile env obj).persisted.finalizers) ∧
    (env.closeOk = true → CloseIssuesFinalizer ∉ obj.finalizers →
      reconcile env obj = ⟨.ok, obj, [.listIssues, .closeIssue n]⟩) := by
  by_cases hclose : env.closeOk = true
  · by_cases hfin : CloseIssuesFinalizer ∈ obj.finalizers
    · by_cases hupd : env.updateOk = true
      · have h1 : reconcile env obj =
            ⟨.ok, { obj with finalizers := obj.finalizers.filter fun f => f != CloseIssuesFinalizer },
              [.listIssues, .closeIssue n,
                .updateObject (obj.finalizers.filter fun f => f != CloseIssuesFinalizer)]⟩ := by
          simp [reconcile, hurl, hdel, hlist, hsearch, hnum, hclose, DeleteFinalizer, hfin, hupd]
        refine ⟨?_, ?_, ?_, ?_⟩
        · rw [h1]
          simp [List.countP_cons, isCloseCall]
        · intro hc
          rw [hc] at hclose
          simp at hclose
        · intro _ _
          rw [h1]
          refine ⟨rfl, ?_⟩
          simp [List.mem_filter]
        · intro _ habs
          exact absurd hfin habs
      · have h1 : reconcile env obj =
            ⟨.err .finalizerUpdateFailed, obj,
              [.listIssues, .closeIssue n,
                .updateObject (obj.finalizers.filter fun f => f != CloseIssuesFinalizer)]⟩ := by
          simp only [Bool.not_eq_true] at hupd
          simp [reconcile, hurl, hdel, hlist, hsearch, hnum, hclose, DeleteFinalizer, hfin, hupd]
        refine ⟨?_, ?_, ?_, ?_⟩
        · rw [h1]
          simp [List.countP_cons, isCloseCall]
        · intro hc
          rw [hc] at hclose
          simp at hclose
        · intro _ hu
          exact absurd hu hupd
        · intro _ habs
          exact absurd hfin habs
    · have h1 : reconcile env obj = ⟨.ok, obj, [.listIssues, .closeIssue n]⟩ := by
        simp [reconcile, hurl, hdel, hlist, hsearch, hnum, hclose, DeleteFinalizer, hfin]
      refine ⟨?_, ?_, ?_, ?_⟩
      · rw [h1]
        simp [List.countP_cons, isCloseCall]
      · intro hc
        rw [hc] at hclose
        simp at hclose
      · intro _ _
        rw [h1]
        exact ⟨rfl, hfin⟩
      · intro _ _
        exact h1
  · simp only [Bool.not_eq_true] at hclose
    have h1 : reconcile env obj =
        ⟨.err .closeIssueFailed, obj, [.listIssues, .closeIssue n]⟩ := by
      simp [reconcile, hurl, hdel, hlist, hsearch, hnum, hclose]
    refine ⟨?_, ?_, ?_, ?_⟩
    · rw [h1]
      simp [List.countP_cons, isCloseCall]
    · intro _
      exact h1
    · intro hc
      rw [hc] at hclose
      simp at hclose
    · intro hc
      rw [hc] at hclose
      simp at hclose

/-- C1 witness: the sample deleting object against a matching remote issue —
the invocation succeeds and the persisted finalizer marker is gone. -/
theorem reconcile_deletion_close_witness :
    (reconcile sampleEnvMatch sampleObjDeleting).outcome = .ok ∧
    CloseIssuesFinalizer ∉ (reconcile sampleEnvMatch sampleObjDeleting).persisted.finalizers :=
  (reconcile_deletion_close sampleEnvMatch sampleObjDeleting
    [⟨some 7, some ("t1"), some ("open"), none⟩] ⟨some 7, some ("t1"), some ("open"), none⟩ 7
    rfl rfl rfl rfl rfl).2.2.1 rfl rfl

/-- C3, evaluated at the failing input: spec title "T1" and description "d",
empty remote list, create call failing — the invocation returns the create
error, but no status write is issued and the persisted conditions stay empty
(the spec and the repository's own unit test expect `IssueIsOpen=False` to be
projected and persisted). -/
theorem reconcile_createFail_writes_no_status :
    reconcile ⟨true, some [], false, false, true, some [], true, true⟩
        ⟨true, [CloseIssuesFinalizer], ⟨"https://github.com/o/r", "T1", "d"⟩, []⟩ =
      ⟨.err .createIssueFailed,
        ⟨true, [CloseIssuesFinalizer], ⟨"https://github.com/o/r", "T1", "d"⟩, []⟩,
        [.listIssues, .createIssue ("T1") ("d")]⟩ ∧
    ((reconcile ⟨true, some [], false, false, true, some [], true, true⟩
        ⟨true, [CloseIssuesFinalizer], ⟨"https://github.com/o/r", "T1", "d"⟩, []⟩).trace.countP
      fun c => isStatusWrite c) = 0 ∧
    (reconcile ⟨true, some [], false, false, true, some [], true, true⟩
        ⟨true, [CloseIssuesFinalizer], ⟨"https://github.com/o/r", "T1", "d"⟩, []⟩).persisted.conditions
      = [] := by
  refine ⟨by decide, by decide, by decide⟩

/-- C8: when the remote edit of the matched issue succeeds but the timeline
fetch fails, the invocation terminates without returning an error, issues no
status write, and the persisted conditions — the HasPR condition included —
keep their previous value. -/
theorem reconcile_timelineFail_no_error (env : Env) (obj : GithubIssueObject)
    (issues : List GhIssue) (g : GhIssue) (n : Int)
    (hurl : env.urlValid = true)
    (hdel : obj.deletionTimestampIsZero = true)
    (hlist : env.listResult = some issues)
    (hsearch : searchForIssueE obj.spec.title issues = .ok (some g))
    (hnum : g.number = some n)
    (hupd : env.updateOk = true)
    (hedit : env.editOk = true)
    (htl : env.timelineResult = none) :
    (reconcile env obj).outcome = .ok ∧
    (reconcile env obj).persisted.conditions = obj.conditions ∧
    ((reconcile env obj).trace.countP fun c => isStatusWrite c) = 0 := by
  by_cases hfin : CloseIssuesFinalizer ∈ obj.finalizers
  · have h1 : reconcile env obj =
        ⟨.ok, obj, [.listIssues, .editIssue n obj.spec.description, .listTimeline n]⟩ := by
      simp [reconcile, hurl, hdel, hlist, hsearch, hnum, AddFinalizer, hfin, hedit, htl]
    rw [h1]
    refine ⟨rfl, rfl, ?_⟩
    simp [List.countP_cons, List.countP_nil, isStatusWrite]
  · have h1 : reconcile env obj =
        ⟨.ok, { obj with finalizers := obj.finalizers ++ [CloseIssuesFinalizer] },
          [.listIssues, .updateObject (obj.finalizers ++ [CloseIssuesFinalizer]),
            .editIssue n obj.spec.description, .listTimeline n]⟩ := by
      simp [reconcile, hurl, hdel, hlist, hsearch, hnum, AddFinalizer, hfin, hupd, hedit, htl]
    rw [h1]
    refine ⟨rfl, rfl, ?_⟩
    simp [List.countP_cons, List.countP_nil, isStatusWrite]

/-- C8 witness: sample object, matching remote issue, edit succeeding,
timeline fetch failing. -/
theorem reconcile_timelineFail_no_error_witness :
    (reconcile { sampleEnvMatch with timelineResult := none } sampleObj).outcome = .ok ∧
    (reconcile { sampleEnvMatch with timelineResult := none } sampleObj).persisted.conditions =
      sampleObj.conditions ∧
    ((reconcile { sampleEnvMatch with timelineResult := none } sampleObj).trace.countP
      fun c => isStatusWrite c) = 0 :=
  reconcile_timelineFail_no_error { sampleEnvMatch with timelineResult := none } sampleObj
    [⟨some 7, some ("t1"), some ("open"), none⟩] ⟨some 7, some ("t1"), some ("open"), none⟩ 7
    rfl rfl rfl rfl rfl rfl rfl rfl

theorem updateIssueStatusVals_trace (b : Bool) (obj : GithubIssueObject)
    (o h : ConditionStatus) :
    (updateIssueStatusVals b obj o h).2.2 = [] ∨
    ∃ cs, (updateIssueStatusVals b obj o h).2.2 = [ExtCall.updateStatus cs] := by
  unfold updateIssueStatusVals
  by_cases hchange : (!(IsStatusConditionPresentAndEqual obj.conditions ("IssueIsOpen") o) ||
      !(IsStatusConditionPresentAndEqual obj.conditions ("IssueHasPR") h)) = true
  · cases b <;> simp [hchange]
  · simp only [Bool.not_eq_true] at hchange
    simp [hchange]

theorem updateIssueStatusVals_finalizers (b : Bool) (obj : GithubIssueObject)
    (o h : ConditionStatus) :
    (updateIssueStatusVals b obj o h).2.1.finalizers = obj.finalizers := by
  unfold updateIssueStatusVals
  by_cases hchange : (!(IsStatusConditionPresentAndEqual obj.conditions ("IssueIsOpen") o) ||
      !(IsStatusConditionPresentAndEqual obj.conditions ("IssueHasPR") h)) = true
  · cases b <;> simp [hchange]
  · simp only [Bool.not_eq_true] at hchange
    simp [hchange]

/-- C7: in every execution of the non-deletion branch, every create call is
issued only at a point where the finalizer marker is persisted — the trace
walk seeded with the object's initial finalizer list and updated at each
finalizer write finds the marker present at every create call — and whenever
a create call occurs at all, the finally persisted object carries the
marker. -/
theorem reconcile_finalizer_before_create (env : Env) (obj : GithubIssueObject)
    (hdel : obj.deletionTimestampIsZero = true) :
    guardedCreate obj.finalizers (reconcile env obj).trace = true ∧
    ((∃ t b, ExtCall.createIssue t b ∈ (reconcile env obj).trace) →
      CloseIssuesFinalizer ∈ (reconcile env obj).persisted.finalizers) := by
  by_cases hurl : env.urlValid = true
  · cases hlist : env.listResult with
    | none =>
      have h1 : reconcile env obj = ⟨.err .listIssuesFailed, obj, [.listIssues]⟩ := by
        simp [reconcile, hurl, hlist]
      rw [h1]
      exact ⟨rfl, by rintro ⟨t, b, hmem⟩; simp at hmem⟩
    | some issues =>
      cases hsearch : searchForIssueE obj.spec.title issues with
      | error p =>
        have h1 : reconcile env obj = ⟨.fault p, obj, [.listIssues]⟩ := by
          simp [reconcile, hurl, hlist, hsearch]
        rw [h1]
        exact ⟨rfl, by rintro ⟨t, b, hmem⟩; simp at hmem⟩
      | ok found =>
        by_cases hfin : CloseIssuesFinalizer ∈ obj.finalizers
        · -- marker already present: AddFinalizer is a no-op
          cases found with
          | none =>
            by_cases hcreate : env.createOk = true
            · rcases hu : updateIssueStatusVals env.statusUpdateOk obj .condTrue .condFalse
                with ⟨oe, obj2, calls3⟩
              have hc := updateIssueStatusVals_trace env.statusUpdateOk obj .condTrue .condFalse
              have hf := updateIssueStatusVals_finalizers env.statusUpdateOk obj
                .condTrue .condFalse
              rw [hu] at hc hf
              simp only at hc hf
              cases oe with
              | none =>
                have h1 : reconcile env obj = ⟨.ok, obj2,
                    .listIssues :: .createIssue obj.spec.title obj.spec.description ::
                      calls3⟩ := by
                  simp [reconcile, hurl, hlist, hsearch, hdel, AddFinalizer, hfin, hcreate, hu]
                rw [h1]
                refine ⟨?_, fun _ => by rw [hf]; exact hfin⟩
                rcases hc with hc | ⟨cs, hc⟩ <;> subst hc <;> simp [guardedCreate, hfin]
              | some e =>
                have h1 : reconcile env obj = ⟨.err e, obj2,
                    .listIssues :: .createIssue obj.spec.title obj.spec.description ::
                      calls3⟩ := by
                  simp [reconcile, hurl, hlist, hsearch, hdel, AddFinalizer, hfin, hcreate, hu]
                rw [h1]
                refine ⟨?_, fun _ => by rw [hf]; exact hfin⟩
                rcases hc with hc | ⟨cs, hc⟩ <;> subst hc <;> simp [guardedCreate, hfin]
            · simp only [Bool.not_eq_true] at hcreate
              have h1 : reconcile env obj = ⟨.err .createIssueFailed, obj,
                  [.listIssues, .createIssue obj.spec.title obj.spec.description]⟩ := by
                simp [reconcile, hurl, hlist, hsearch, hdel, AddFinalizer, hfin, hcreate]
              rw [h1]
              exact ⟨by simp [guardedCreate, hfin], fun _ => hfin⟩
          | some g =>
            cases hnum : g.number with
            | none =>
              have h1 : reconcile env obj = ⟨.fault .nilNumber, obj, [.listIssues]⟩ := by
                simp [reconcile, hurl, hlist, hsearch, hdel, AddFinalizer, hfin, hnum]
              rw [h1]
              exact ⟨rfl, by rintro ⟨t, b, hmem⟩; simp at hmem⟩
            | some n =>
              by_cases hedit : env.editOk = true
              · cases htl : env.timelineResult with
                | none =>
                  have h1 : reconcile env obj = ⟨.ok, obj,
                      [.listIssues, .editIssue n obj.spec.description, .listTimeline n]⟩ := by
                    simp [reconcile, hurl, hlist, hsearch, hdel, AddFinalizer, hfin, hnum,
                      hedit, htl]
                  rw [h1]
                  exact ⟨rfl, by rintro ⟨t, b, hmem⟩; simp at hmem⟩
                | some tl =>
                  rcases hu : updateIssueStatusVals env.statusUpdateOk obj .condTrue
                      (searchForPR tl) with ⟨oe, obj2, calls4⟩
                  have hc := updateIssueStatusVals_trace env.statusUpdateOk obj .condTrue
                    (searchForPR tl)
                  rw [hu] at hc
                  simp only at hc
                  cases oe with
                  | none =>
                    have h1 : reconcile env obj = ⟨.ok, obj2,
                        .listIssues :: .editIssue n obj.spec.description ::
                          .listTimeline n :: calls4⟩ := by
                      simp [reconcile, hurl, hlist, hsearch, hdel, AddFinalizer, hfin, hnum,
                        hedit, htl, hu]
                    rw [h1]
                    refine ⟨?_, ?_⟩
                    · rcases hc with hc | ⟨cs, hc⟩ <;> subst hc <;> simp [guardedCreate]
                    · rintro ⟨t, b, hmem⟩
                      rcases hc with hc | ⟨cs, hc⟩ <;> subst hc <;> simp at hmem
                  | some e =>
                    have h1 : reconcile env obj = ⟨.err e, obj2,
                        .listIssues :: .editIssue n obj.spec.description ::
                          .listTimeline n :: calls4⟩ := by
                      simp [reconcile, hurl, hlist, hsearch, hdel, AddFinalizer, hfin, hnum,
                        hedit, htl, hu]
                    rw [h1]
                    refine ⟨?_, ?_⟩
                    · rcases hc with hc | ⟨cs, hc⟩ <;> subst hc <;> simp [guardedCreate]
                    · rintro ⟨t, b, hmem⟩
                      rcases hc with hc | ⟨cs, hc⟩ <;> subst hc <;> simp at hmem
              · simp only [Bool.not_eq_true] at hedit
                have h1 : reconcile env obj = ⟨.err .editIssueFailed, obj,
                    [.listIssues, .editIssue n obj.spec.description]⟩ := by
                  simp [reconcile, hurl, hlist, hsearch, hdel, AddFinalizer, hfin, hnum, hedit]
                rw [h1]
                exact ⟨rfl, by rintro ⟨t, b, hmem⟩; simp at hmem⟩
        · -- marker absent: AddFinalizer must persist it first
          by_cases hupd : env.updateOk = true
          · cases found with
            | none =>
              by_cases hcreate : env.createOk = true
              · rcases hu : updateIssueStatusVals env.statusUpdateOk
                    { obj with finalizers := obj.finalizers ++ [CloseIssuesFinalizer] }
                    .condTrue .condFalse with ⟨oe, obj2, calls3⟩
                have hc := updateIssueStatusVals_trace env.statusUpdateOk
                  { obj with finalizers := obj.finalizers ++ [CloseIssuesFinalizer] }
                  .condTrue .condFalse
                have hf := updateIssueStatusVals_finalizers env.statusUpdateOk
                  { obj with finalizers := obj.finalizers ++ [CloseIssuesFinalizer] }
                  .condTrue .condFalse
                rw [hu] at hc hf
                simp only at hc hf
                simp only [hdel] at hu
                cases oe with
                | none =>
                  have h1 : reconcile env obj = ⟨.ok, obj2,
                      .listIssues :: .updateObject (obj.finalizers ++ [CloseIssuesFinalizer]) ::
                        .createIssue obj.spec.title obj.spec.description :: calls3⟩ := by
                    simp [reconcile, hurl, hlist, hsearch, hdel, AddFinalizer, hfin, hupd,
                      hcreate, hu]
                  rw [h1]
                  refine ⟨?_, fun _ => by rw [hf]; simp⟩
                  rcases hc with hc | ⟨cs, hc⟩ <;> subst hc <;> simp [guardedCreate]
                | some e =>
                  have h1 : reconcile env obj = ⟨.err e, obj2,
                      .listIssues :: .updateObject (obj.finalizers ++ [CloseIssuesFinalizer]) ::
                        .createIssue obj.spec.title obj.spec.description :: calls3⟩ := by
                    simp [reconcile, hurl, hlist, hsearch, hdel, AddFinalizer, hfin, hupd,
                      hcreate, hu]
                  rw [h1]
                  refine ⟨?_, fun _ => by rw [hf]; simp⟩
                  rcases hc with hc | ⟨cs, hc⟩ <;> subst hc <;> simp [guardedCreate]
              · simp only [Bool.not_eq_true] at hcreate
                have h1 : reconcile env obj = ⟨.err .createIssueFailed,
                    { obj with finalizers := obj.finalizers ++ [CloseIssuesFinalizer] },
                    [.listIssues, .updateObject (obj.finalizers ++ [CloseIssuesFinalizer]),
                      .createIssue obj.spec.title obj.spec.description]⟩ := by
                  simp [reconcile, hurl, hlist, hsearch, hdel, AddFinalizer, hfin, hupd, hcreate]
                rw [h1]
                exact ⟨by simp [guardedCreate], fun _ => by simp⟩
            | some g =>
              cases hnum : g.number with
              | none =>
                have h1 : reconcile env obj = ⟨.fault .nilNumber,
                    { obj with finalizers := obj.finalizers ++ [CloseIssuesFinalizer] },
                    [.listIssues,
                      .updateObject (obj.finalizers ++ [CloseIssuesFinalizer])]⟩ := by
                  simp [reconcile, hurl, hlist, hsearch, hdel, AddFinalizer, hfin, hupd, hnum]
                rw [h1]
                exact ⟨rfl, by rintro ⟨t, b, hmem⟩; simp at hmem⟩
              | some n =>
                by_cases hedit : env.editOk = true
                · cases htl : env.timelineResult with
                  | none =>
                    have h1 : reconcile env obj = ⟨.ok,
                        { obj with finalizers := obj.finalizers ++ [CloseIssuesFinalizer] },
                        [.listIssues, .updateObject (obj.finalizers ++ [CloseIssuesFinalizer]),
                          .editIssue n obj.spec.description, .listTimeline n]⟩ := by
                      simp [reconcile, hurl, hlist, hsearch, hdel, AddFinalizer, hfin, hupd,
                        hnum, hedit, htl]
                    rw [h1]
                    exact ⟨rfl, by rintro ⟨t, b, hmem⟩; simp at hmem⟩
                  | some tl =>
                    rcases hu : updateIssueStatusVals env.statusUpdateOk
                        { obj with finalizers := obj.finalizers ++ [CloseIssuesFinalizer] }
                        .condTrue (searchForPR tl) with ⟨oe, obj2, calls4⟩
                    have hc := updateIssueStatusVals_trace env.statusUpdateOk
                      { obj with finalizers := obj.finalizers ++ [CloseIssuesFinalizer] }
                      .condTrue (searchForPR tl)
                    rw [hu] at hc
                    simp only at hc
                    simp only [hdel] at hu
                    cases oe with
                    | none =>
                      have h1 : reconcile env obj = ⟨.ok, obj2,
                          .listIssues ::
                            .updateObject (obj.finalizers ++ [CloseIssuesFinalizer]) ::
                            .editIssue n obj.spec.description ::
                            .listTimeline n :: calls4⟩ := by
                        simp [reconcile, hurl, hlist, hsearch, hdel, AddFinalizer, hfin, hupd,
                          hnum, hedit, htl, hu]
                      rw [h1]
                      refine ⟨?_, ?_⟩
                      · rcases hc with hc | ⟨cs, hc⟩ <;> subst hc <;> simp [guardedCreate]
                      · rintro ⟨t, b, hmem⟩
                        rcases hc with hc | ⟨cs, hc⟩ <;> subst hc <;> simp at hmem
                    | some e =>
                      have h1 : reconcile env obj = ⟨.err e, obj2,
                          .listIssues ::
                            .updateObject (obj.finalizers ++ [CloseIssuesFinalizer]) ::
                            .editIssue n obj.spec.description ::
                            .listTimeline n :: calls4⟩ := by
                        simp [reconcile, hurl, hlist, hsearch, hdel, AddFinalizer, hfin, hupd,
                          hnum, hedit, htl, hu]
                      rw [h1]
                      refine ⟨?_, ?_⟩
                      · rcases hc with hc | ⟨cs, hc⟩ <;> subst hc <;> simp [guardedCreate]
                      · rintro ⟨t, b, hmem⟩
                        rcases hc with hc | ⟨cs, hc⟩ <;> subst hc <;> simp at hmem
                · simp only [Bool.not_eq_true] at hedit
                  have h1 : reconcile env obj = ⟨.err .editIssueFailed,
                      { obj with finalizers := obj.finalizers ++ [CloseIssuesFinalizer] },
                      [.listIssues, .updateObject (obj.finalizers ++ [CloseIssuesFinalizer]),
                        .editIssue n obj.spec.description]⟩ := by
                    simp [reconcile, hurl, hlist, hsearch, hdel, AddFinalizer, hfin, hupd,
                      hnum, hedit]
                  rw [h1]
                  exact ⟨rfl, by rintro ⟨t, b, hmem⟩; simp at hmem⟩
          · simp only [Bool.not_eq_true] at hupd
            have h1 : reconcile env obj = ⟨.err .finalizerUpdateFailed, obj,
                [.listIssues, .updateObject (obj.finalizers ++ [CloseIssuesFinalizer])]⟩ := by
              simp [reconcile, hurl, hlist, hsearch, hdel, AddFinalizer, hfin, hupd]
            rw [h1]
            exact ⟨rfl, by rintro ⟨t, b, hmem⟩; simp at hmem⟩
  · simp only [Bool.not_eq_true] at hurl
    have h1 : reconcile env obj = ⟨.err .invalidRepoURL, obj, []⟩ := by
      simp [reconcile, hurl]
    rw [h1]
    exact ⟨rfl, by rintro ⟨t, b, hmem⟩; simp at hmem⟩

/-- C7 witness: sample object without the marker — the trace persists the
finalizer before the create call and the walk confirms it. -/
theorem reconcile_finalizer_before_create_witness :
    guardedCreate sampleObj.finalizers (reconcile sampleEnvEmpty sampleObj).trace = true ∧
    ((∃ t b, ExtCall.createIssue t b ∈ (reconcile sampleEnvEmpty sampleObj).trace) →
      CloseIssuesFinalizer ∈ (reconcile sampleEnvEmpty sampleObj).persisted.finalizers) :=
  reconcile_finalizer_before_create sampleEnvEmpty sampleObj rfl

theorem searchForIssueE_ok_of_titles (specTitle : String) (issues : List GhIssue)
    (h : ∀ g ∈ issues, (g.title).isSome = true) :
    ∃ res, searchForIssueE specTitle issues = .ok res := by
  induction issues with
  | nil => exact ⟨none, rfl⟩
  | cons g gs ih =>
    obtain ⟨t, ht⟩ := Option.isSome_iff_exists.mp (h g (List.mem_cons_self g gs))
    by_cases hmatch : equalFold t specTitle = true
    · exact ⟨some g, by simp [searchForIssueE, ht, hmatch]⟩
    · obtain ⟨res, hres⟩ := ih fun x hx => h x (List.mem_cons_of_mem g hx)
      exact ⟨res, by simp [searchForIssueE, ht, hmatch, hres]⟩

theorem searchForIssueE_mem (specTitle : String) (issues : List GhIssue) (g : GhIssue)
    (h : searchForIssueE specTitle issues = .ok (some g)) : g ∈ issues := by
  induction issues with
  | nil => simp [searchForIssueE] at h
  | cons a as ih =>
    cases ha : a.title with
    | none => simp [searchForIssueE, ha] at h
    | some t =>
      by_cases hmatch : equalFold t specTitle = true
      · simp [searchForIssueE, ha, hmatch] at h
        rw [← h]
        exact List.mem_cons_self a as
      · simp [searchForIssueE, ha, hmatch] at h
        exact List.mem_cons_of_mem a (ih h)

/-- C9: the matcher and the deletion/edit paths dereference the fetched
issues' title and number pointers without nil checks: when every fetched
issue has a non-nil title, the matcher's dereference succeeds, and when
additionally any matched issue has a non-nil number, the invocation never
faults on a nil dereference; the fault branch is real — a fetched list whose
issue has a nil title makes the matcher's dereference undefined. -/
theorem nilPointer_safety (env : Env) (obj : GithubIssueObject) (issues : List GhIssue)
    (hlist : env.listResult = some issues)
    (htitles : ∀ g ∈ issues, (g.title).isSome = true)
    (hnums : ∀ g, searchForIssueE obj.spec.title issues = .ok (some g) →
      (g.number).isSome = true) :
    (∃ res, searchForIssueE obj.spec.title issues = .ok res) ∧
    (∀ p, (reconcile env obj).outcome ≠ .fault p) ∧
    searchForIssueE ("Bug") [⟨none, none, none, none⟩] = .error .nilTitle := by
  obtain ⟨res, hres⟩ := searchForIssueE_ok_of_titles obj.spec.title issues htitles
  refine ⟨⟨res, hres⟩, ?_, rfl⟩
  rintro p hfault
  by_cases hurl : env.urlValid = true
  · unfold reconcile at hfault
    simp only [hurl, hlist, hres, Bool.not_true, Bool.false_eq_true, if_false] at hfault
    cases res with
    | none =>
      by_cases hdel : obj.deletionTimestampIsZero = true
      · simp only [hdel, Bool.not_true, Bool.false_eq_true, if_false] at hfault
        rcases hAF : AddFinalizer env.updateOk obj with ⟨oe1, obj1, calls1⟩
        simp only [hAF] at hfault
        cases oe1 with
        | some e => simp at hfault
        | none =>
          by_cases hcreate : env.createOk = true
          · simp only [hcreate, Bool.not_true, Bool.false_eq_true, if_false] at hfault
            rcases hu : updateIssueStatusVals env.statusUpdateOk obj1 .condTrue .condFalse
              with ⟨oe2, obj2, calls3⟩
            simp only [hu] at hfault
            cases oe2 <;> simp at hfault
          · simp only [Bool.not_eq_true] at hcreate
            simp [hcreate] at hfault
      · simp only [Bool.not_eq_true] at hdel
        simp [hdel] at hfault
    | some g =>
      obtain ⟨n, hn⟩ := Option.isSome_iff_exists.mp (hnums g hres)
      by_cases hdel : obj.deletionTimestampIsZero = true
      · simp only [hdel, Bool.not_true, Bool.false_eq_true, if_false, hn] at hfault
        rcases hAF : AddFinalizer env.updateOk obj with ⟨oe1, obj1, calls1⟩
        simp only [hAF] at hfault
        cases oe1 with
        | some e => simp at hfault
        | none =>
          by_cases hedit : env.editOk = true
          · simp only [hedit, Bool.not_true, Bool.false_eq_true, if_false] at hfault
            cases htl : env.timelineResult with
            | none => simp [htl] at hfault
            | some tl =>
              simp only [htl] at hfault
              rcases hu : updateIssueStatusVals env.statusUpdateOk obj1 .condTrue
                (searchForPR tl) with ⟨oe2, obj2, calls4⟩
              simp only [hu] at hfault
              cases oe2 <;> simp at hfault
          · simp only [Bool.not_eq_true] at hedit
            simp [hedit] at hfault
      · simp only [Bool.not_eq_true] at hdel
        simp only [hdel, Bool.not_false, eq_self_iff_true, if_true, hn] at hfault
        by_cases hclose : env.closeOk = true
        · simp only [hclose, Bool.not_true, Bool.false_eq_true, if_false] at hfault
          rcases hDF : DeleteFinalizer env.updateOk obj with ⟨oe1, done, obj1, calls1⟩
          simp only [hDF] at hfault
          cases oe1 <;> simp at hfault
        · simp only [Bool.not_eq_true] at hclose
          simp [hclose] at hfault
  · simp only [Bool.not_eq_true] at hurl
    unfold reconcile at hfault
    simp [hurl] at hfault

/-- C9 witness: the sample environment with a matching, fully populated
remote issue never faults. -/
theorem nilPointer_safety_witness :
    (reconcile sampleEnvMatch sampleObj).outcome ≠ Outcome.fault DerefFault.nilNumber :=
  (nilPointer_safety sampleEnvMatch sampleObj [⟨some 7, some ("t1"), some ("open"), none⟩]
    rfl (by decide) (fun g hg => by
      have hmem := searchForIssueE_mem sampleObj.spec.title
        [⟨some 7, some ("t1"), some ("open"), none⟩] g hg
      rw [List.mem_singleton.mp hmem]
      decide)).2.1 DerefFault.nilNumber

end GithubIssueOperator
